import Mathlib

/-!
Verification of the NonceMapper core (src/proxy/splitters/NonceMapper.cpp) of a
mining-proxy: a shallow embedding of the mapper orchestrator, with its
collaborators (Registry/NonceStorage, the Strategy variants, Url, SubmitCtx)
modelled from their interface contracts where their sources are not part of
this tree.
-/

set_option linter.unusedVariables false
set_option linter.unnecessarySimpa false

/-- A unit of work issued by upstream: an id and a difficulty. The opaque
upstream payload plays no role in any property here and is omitted. -/
structure Job where
  jobId : Nat
  diff : Nat
deriving DecidableEq

/-- A submitted solution (JobResult): protocol request id, the job id it
answers, the nonce, and the difficulty it is graded against. -/
structure JobResult where
  id : Int
  jobId : Nat
  nonce : Nat
  diff : Nat
deriving DecidableEq

/-- A submit event from a miner: the request plus the originating miner's id
(the source reads it via event->miner()->id()). -/
structure SubmitEvent where
  request : JobResult
  minerId : Int
deriving DecidableEq

/-- Modelled from the spec: a pool Url is a {host, port, credentials, tls-flag}
tuple compared by value (section 6); Url.cpp is not part of this tree. -/
structure Url where
  host : String
  port : Nat
  user : String
  password : String
  tls : Bool
deriving DecidableEq

/-- NonceMapper.cpp line 48: compare(Url *i, Url *j) returns *i == *j, value
equality of the pointed-to pools. -/
def compare (i j : Url) : Bool := i == j

/-- Modelled from the spec: the Strategy contract (section 4.3). The variants
own the network connections (out of scope), so the model keeps the activity
flag, the monotonically increasing sequence counter, the results forwarded so
far, and how many connect() / stop() calls were issued. -/
structure IStrategy where
  active : Bool
  nextSeq : Int
  submitted : List JobResult
  connectCount : Nat
  stopCount : Nat
deriving DecidableEq

def IStrategy.isActive (s : IStrategy) : Bool := s.active

/-- Modelled from the spec: submit(result) returns a monotonically increasing
sequence number, unique per outstanding submit, and forwards the result. -/
def IStrategy.submit (s : IStrategy) (r : JobResult) : Int × IStrategy :=
  (s.nextSeq, { s with nextSeq := s.nextSeq + 1, submitted := s.submitted ++ [r] })

/-- Modelled from the spec: connect() begins upstream negotiation
asynchronously; the model records that the call was issued. -/
def IStrategy.connect (s : IStrategy) : IStrategy :=
  { s with connectCount := s.connectCount + 1 }

/-- Modelled from the spec: stop() releases upstream connections but does not
destroy the strategy; the model records that the call was issued. -/
def IStrategy.stop (s : IStrategy) : IStrategy :=
  { s with stopCount := s.stopCount + 1 }

/-- Modelled from the spec: the Registry (NonceStorage, section 4.2) — the set
of attached miner ids, the current Job (nullable until the first job arrives),
and the active flag. NonceStorage.cpp is not part of this tree. -/
structure NonceStorage where
  active : Bool
  job : Option Job
  minerIds : List Int
deriving DecidableEq

def NonceStorage.isActive (s : NonceStorage) : Bool := s.active

def NonceStorage.setActive (s : NonceStorage) (b : Bool) : NonceStorage :=
  { s with active := b }

/-- Modelled from the spec: isUsed() is true iff at least one miner is attached. -/
def NonceStorage.isUsed (s : NonceStorage) : Bool := !s.minerIds.isEmpty

/-- Modelled from the spec: setJob wholesale-replaces the current Job. -/
def NonceStorage.setJob (s : NonceStorage) (j : Job) : NonceStorage :=
  { s with job := some j }

/-- Modelled from the spec: reset() clears the job state on suspension but NOT
the attached-miner set. -/
def NonceStorage.reset (s : NonceStorage) : NonceStorage :=
  { s with job := none }

/-- Modelled from the spec: a submitted job id is valid iff it matches the
Registry's current job id (P2). -/
def NonceStorage.isValidJobId (s : NonceStorage) (jid : Nat) : Bool :=
  match s.job with
  | some j => j.jobId == jid
  | none => false

/-- The difficulty of the Registry's current job, as read by
m_storage->job().diff(); a default job before the first setJob has diff 0. -/
def NonceStorage.jobDiff (s : NonceStorage) : Nat :=
  match s.job with
  | some j => j.diff
  | none => 0

/-- Modelled from the spec: miner(id) returns the attached miner with that id
or null. -/
def NonceStorage.miner (s : NonceStorage) (minerId : Int) : Option Int :=
  if s.minerIds.contains minerId then some minerId else none

/-- Modelled from the spec: Registry add(miner, request) may reject (duplicate
or invalid login, opaque to this core); the decision is passed in as the
oracle argument. On acceptance the miner is attached. -/
def NonceStorage.add (s : NonceStorage) (minerId : Int) (accepts : Bool) :
    Option NonceStorage :=
  if accepts then some { s with minerIds := s.minerIds ++ [minerId] } else none

/-- Modelled from the spec: remove(miner) drops the miner, no error if absent. -/
def NonceStorage.remove (s : NonceStorage) (minerId : Int) : NonceStorage :=
  { s with minerIds := s.minerIds.filter (fun x => x != minerId) }

/-- Modelled from the spec: SubmitContext {requestId, minerId}, stored keyed by
the strategy-issued sequence number; a default-constructed context is zeroed. -/
structure SubmitCtx where
  id : Int
  minerId : Int
deriving DecidableEq

/-- The Correlator table std::map<int64_t, SubmitCtx> m_results, as an
association list whose keys are kept unique by mapInsert. -/
abbrev Correlator := List (Int × SubmitCtx)

def mapContains (l : Correlator) (k : Int) : Bool :=
  l.any (fun p => p.1 == k)

def mapLookup (l : Correlator) (k : Int) : Option SubmitCtx :=
  (l.find? (fun p => p.1 == k)).map (fun p => p.2)

def mapInsert (l : Correlator) (k : Int) (v : SubmitCtx) : Correlator :=
  if mapContains l k then l.map (fun p => if p.1 == k then (k, v) else p)
  else l ++ [(k, v)]

def mapErase (l : Correlator) (k : Int) : Correlator :=
  l.filter (fun p => p.1 != k)

/-- The strategy an instantiation constructs: a FailoverStrategy over the whole
pool list, or a SinglePoolStrategy over the front pool. -/
inductive StrategyDesc where
  | failover (pools : List Url)
  | singlePool (pool : Url)
deriving DecidableEq

/-- The NonceMapper (Mapper) state: its id, the identity of the currently-held
primary strategy object (m_strategy as a reference, modelled as a Nat tag)
together with that strategy's state, the optional donation strategy, the
m_suspended counter, the Registry and the Correlator. -/
structure NonceMapper where
  id : Nat
  strategyRef : Nat
  strategy : IStrategy
  donate : Option IStrategy
  suspended : Nat
  storage : NonceStorage
  results : Correlator
deriving DecidableEq

/-- Modelled from the spec: isSuspended() reads the m_suspended counter
(0 = active, >0 = suspended); the accessor lives in the header. -/
def NonceMapper.isSuspended (m : NonceMapper) : Bool := m.suspended != 0

/-- NonceMapper::isActive (line 92): Registry active and not suspended. -/
def NonceMapper.isActive (m : NonceMapper) : Bool :=
  m.storage.isActive && !m.isSuspended

/-- NonceMapper::connect (line 274): clears m_suspended, connects the primary
strategy and, if present, the donation strategy. -/
def NonceMapper.connect (m : NonceMapper) : NonceMapper :=
  { m with suspended := 0,
           strategy := m.strategy.connect,
           donate := m.donate.map IStrategy.connect }

/-- NonceMapper::suspend (line 285): sets m_suspended to 1, deactivates and
resets the Registry, stops the primary and, if present, the donation strategy. -/
def NonceMapper.suspend (m : NonceMapper) : NonceMapper :=
  { m with suspended := 1,
           storage := (m.storage.setActive false).reset,
           strategy := m.strategy.stop,
           donate := m.donate.map IStrategy.stop }

/-- NonceMapper::gc (line 98): when suspended, increment the idle counter;
otherwise do nothing unless the id is non-zero and the Registry is unused, in
which case suspend. -/
def NonceMapper.gc (m : NonceMapper) : NonceMapper :=
  if m.isSuspended then { m with suspended := m.suspended + 1 }
  else if m.id == 0 || m.storage.isUsed then m
  else m.suspend

/-- NonceMapper::add (line 77): outcome record — the return value, the mapper
state afterwards, whether connect() ran, and the mapper id recorded on the
miner via setMapperId (none when not recorded). -/
structure AddResult where
  ok : Bool
  mapper : NonceMapper
  connectCalled : Bool
  minerMapperId : Option Nat
deriving DecidableEq

/-- NonceMapper::add (line 77): delegate to the Registry; on rejection return
false with no side effect; on success connect if suspended and record the
mapper id on the miner. -/
def NonceMapper.add (m : NonceMapper) (minerId : Int) (storageAccepts : Bool) :
    AddResult :=
  match m.storage.add minerId storageAccepts with
  | none => { ok := false, mapper := m, connectCalled := false, minerMapperId := none }
  | some st =>
    let m1 := { m with storage := st }
    if m1.isSuspended then
      { ok := true, mapper := m1.connect, connectCalled := true, minerMapperId := some m.id }
    else
      { ok := true, mapper := m1, connectCalled := false, minerMapperId := some m.id }

/-- NonceMapper::remove (line 124): unconditionally drop the miner. -/
def NonceMapper.removeMiner (m : NonceMapper) (minerId : Int) : NonceMapper :=
  { m with storage := m.storage.remove minerId }

/-- NonceMapper::createStrategy (line 246): more than one pool gives a
FailoverStrategy over the list, otherwise a SinglePoolStrategy over
pools.front(); front() of an empty vector has no defined result, modelled as
none. -/
def NonceMapper.createStrategy (pools : List Url) : Option StrategyDesc :=
  if pools.length > 1 then some (StrategyDesc.failover pools)
  else (pools.head?).map StrategyDesc.singlePool

/-- What NonceMapper::reload does besides returning: the strategy it
constructs from the new pool list (none when construction itself is undefined
on an empty list) and whether connect() was issued on it. -/
structure ReloadAction where
  built : Option StrategyDesc
  connectCalled : Bool
deriving DecidableEq

/-- NonceMapper::reload (line 113): a no-op when the ordered pool lists have
equal size and are element-wise equal under compare; otherwise construct a
brand-new strategy from the new pools and connect it. The mapper itself (in
particular m_strategy) is not touched. -/
def NonceMapper.reload (m : NonceMapper) (pools previousPools : List Url) :
    NonceMapper × Option ReloadAction :=
  if pools.length == previousPools.length
      && (List.zip pools previousPools).all (fun p => compare p.1 p.2) then
    (m, none)
  else
    let built := NonceMapper.createStrategy pools
    (m, some { built := built, connectCalled := built.isSome })

/-- Protocol-level errors surfaced to miners by submit(). -/
inductive Error where
  | BadGateway
  | InvalidJobId
deriving DecidableEq

/-- Outcome of NonceMapper::submit on the event: a rejection via
event->reject(error), or acceptance with the sequence number the chosen
strategy's submit returned. -/
inductive SubmitOutcome where
  | rejected (e : Error)
  | accepted (seq : Int)
deriving DecidableEq

/-- The channel NonceMapper::submit forwards to (line 149): the donation
strategy when present and currently active, else the primary. -/
def NonceMapper.chosenStrategy (m : NonceMapper) : IStrategy :=
  match m.donate with
  | some d => if d.isActive then d else m.strategy
  | none => m.strategy

/-- Whether a donation strategy is present and currently active
(m_donate && m_donate->isActive()). -/
def NonceMapper.donateActive (m : NonceMapper) : Bool :=
  match m.donate with
  | some d => d.isActive
  | none => false

/-- NonceMapper::submit (line 136): reject BadGateway when the Registry is
inactive, InvalidJobId when the job id is not valid; otherwise override the
difficulty from the Registry's job, forward to the donation strategy if
present and active (else the primary), and store {requestId, minerId} in the
Correlator keyed by the returned sequence number. -/
def NonceMapper.submit (m : NonceMapper) (event : SubmitEvent) :
    NonceMapper × SubmitOutcome :=
  if !m.storage.isActive then (m, SubmitOutcome.rejected Error.BadGateway)
  else if !m.storage.isValidJobId event.request.jobId then
    (m, SubmitOutcome.rejected Error.InvalidJobId)
  else
    let req := { event.request with diff := m.storage.jobDiff }
    match m.donate with
    | some d =>
      if d.isActive then
        let sr := d.submit req
        ({ m with donate := some sr.2,
                  results := mapInsert m.results sr.1 { id := req.id, minerId := event.minerId } },
         SubmitOutcome.accepted sr.1)
      else
        let sr := m.strategy.submit req
        ({ m with strategy := sr.2,
                  results := mapInsert m.results sr.1 { id := req.id, minerId := event.minerId } },
         SubmitOutcome.accepted sr.1)
    | none =>
      let sr := m.strategy.submit req
      ({ m with strategy := sr.2,
                results := mapInsert m.results sr.1 { id := req.id, minerId := event.minerId } },
       SubmitOutcome.accepted sr.1)

/-- NonceMapper::onActive (line 177): mark the Registry active; return if the
client is the sentinel (id -1); otherwise, if the reporting strategy differs
from the held primary reference, release the old one and swap in the new. The
Bool result records whether the old reference was released and replaced. -/
def NonceMapper.onActive (m : NonceMapper) (sRef : Nat) (s : IStrategy)
    (clientId : Int) : NonceMapper × Bool :=
  let m1 := { m with storage := m.storage.setActive true }
  if clientId == -1 then (m1, false)
  else if m1.strategyRef != sRef then
    ({ m1 with strategyRef := sRef, strategy := s }, true)
  else (m1, false)

/-- NonceMapper::onJob (line 196): suppress the job when a donation strategy
is present and active, the client is real (id ≠ -1) and reschedule() returned
false; otherwise install it into the Registry. The reschedule() answer of the
donation strategy (modelled from the spec: DonateStrategy is not part of this
tree) is passed in. -/
def NonceMapper.onJob (m : NonceMapper) (clientId : Int) (job : Job)
    (reschedule : Bool) : NonceMapper :=
  if m.donateActive && clientId != -1 && !reschedule then m
  else { m with storage := m.storage.setJob job }

/-- NonceMapper::onPause (line 211): mark the Registry inactive. -/
def NonceMapper.onPause (m : NonceMapper) : NonceMapper :=
  { m with storage := m.storage.setActive false }

/-- The context NonceMapper::submitCtx resolves: the stored request id and
miner id, and the miner currently registered under that id (none when the
entry was missing or the miner has detached). -/
structure CtxRes where
  id : Int
  minerId : Int
  miner : Option Int
deriving DecidableEq

/-- NonceMapper::submitCtx (line 256): a missing sequence number yields a
default context with no miner; otherwise resolve the stored context, look the
miner up in the Registry, and erase the Correlator entry. -/
def NonceMapper.submitCtx (m : NonceMapper) (seq : Int) : NonceMapper × CtxRes :=
  match mapLookup m.results seq with
  | none => (m, { id := 0, minerId := 0, miner := none })
  | some ctx =>
    ({ m with results := mapErase m.results seq },
     { id := ctx.id, minerId := ctx.minerId, miner := m.storage.miner ctx.minerId })

/-- A reply sent back to a miner for a resolved result. -/
inductive Reply where
  | success (requestId : Int) (minerId : Int)
  | failure (requestId : Int) (text : String) (minerId : Int)
deriving DecidableEq

/-- NonceMapper::onResultAccepted (line 221): resolve the sequence number via
submitCtx; when a miner was found, reply with the error text and the stored
request id on error, else with success; when none, send nothing. -/
def NonceMapper.onResultAccepted (m : NonceMapper) (seq : Int) (clientId : Int)
    (error : Option String) : NonceMapper × Option Reply :=
  let r := m.submitCtx seq
  match r.2.miner with
  | none => (r.1, none)
  | some minerId =>
    match error with
    | some text => (r.1, some (Reply.failure r.2.id text minerId))
    | none => (r.1, some (Reply.success r.2.id minerId))

/-! Concrete fixtures used by the witness theorems. -/

def job0 : Job := { jobId := 7, diff := 1000 }

def req0 : JobResult := { id := 5, jobId := 7, nonce := 42, diff := 1 }

def ev0 : SubmitEvent := { request := req0, minerId := 3 }

def strat0 : IStrategy :=
  { active := true, nextSeq := 10, submitted := [], connectCount := 1, stopCount := 0 }

def donateOn : IStrategy :=
  { active := true, nextSeq := 100, submitted := [], connectCount := 1, stopCount := 0 }

def storage0 : NonceStorage := { active := true, job := some job0, minerIds := [3] }

def mBase : NonceMapper :=
  { id := 1, strategyRef := 0, strategy := strat0, donate := none, suspended := 0,
    storage := storage0, results := [] }

def mInactive : NonceMapper := { mBase with storage := { storage0 with active := false } }

def mStale : NonceMapper :=
  { mBase with storage := { storage0 with job := some { jobId := 8, diff := 500 } } }

def mDonate : NonceMapper := { mBase with donate := some donateOn }

def ctx0 : SubmitCtx := { id := 5, minerId := 3 }

def mCorr : NonceMapper := { mBase with results := [(10, ctx0)] }

def url0 : Url :=
  { host := "pool.example.com", port := 3333, user := "u", password := "p", tls := false }

def url1 : Url := { url0 with port := 5555 }

def mIdle : NonceMapper := { mBase with storage := { storage0 with minerIds := [] } }

def mSusp : NonceMapper := { mBase with suspended := 2 }

/-! Claim theorems. -/

/-- C1: submit() rejects with BadGateway whenever the Registry is inactive, and
with InvalidJobId whenever the submitted job id is not the currently valid one;
on both rejection paths the mapper state is returned unchanged — no strategy
submit is invoked and no Correlator entry is created (no sequence number
consumed). -/
theorem C1_submit_gating (m : NonceMapper) (e : SubmitEvent) :
    (m.storage.isActive = false →
       m.submit e = (m, SubmitOutcome.rejected Error.BadGateway)) ∧
    (m.storage.isActive = true →
       m.storage.isValidJobId e.request.jobId = false →
       m.submit e = (m, SubmitOutcome.rejected Error.InvalidJobId)) := by
  constructor
  · intro h
    simp [NonceMapper.submit, h]
  · intro h1 h2
    simp [NonceMapper.submit, h1, h2]

/-- C1 witness: a concrete inactive mapper rejects with BadGateway, and a
concrete active mapper with a stale job id rejects with InvalidJobId. -/
theorem C1_submit_gating_witness :
    (mInactive.submit ev0 = (mInactive, SubmitOutcome.rejected Error.BadGateway)) ∧
    (mStale.submit ev0 = (mStale, SubmitOutcome.rejected Error.InvalidJobId)) :=
  ⟨(C1_submit_gating mInactive ev0).1 (by decide),
   (C1_submit_gating mStale ev0).2 (by decide) (by decide)⟩

/-- C10: createStrategy is total exactly on non-empty pool lists; with at most
one pool it takes the single-pool branch that reads pools.front(), which has
no defined result on the empty list. -/
theorem C10_createStrategy_total (pools : List Url) :
    ((NonceMapper.createStrategy pools).isSome ↔ pools ≠ []) ∧
    (pools.length ≤ 1 →
       NonceMapper.createStrategy pools = (pools.head?).map StrategyDesc.singlePool) ∧
    (NonceMapper.createStrategy ([] : List Url) = none) := by
  refine ⟨?_, ?_, by simp [NonceMapper.createStrategy]⟩
  · cases pools with
    | nil => simp [NonceMapper.createStrategy]
    | cons a t => cases t <;> simp [NonceMapper.createStrategy]
  · intro h
    cases pools with
    | nil => simp [NonceMapper.createStrategy]
    | cons a t =>
      cases t with
      | nil => simp [NonceMapper.createStrategy]
      | cons b t2 => simp at h
  
/-- C10 witness: a singleton pool list takes the single-pool branch and is
defined. -/
theorem C10_createStrategy_total_witness :
    (([url0] : List Url).length ≤ 1) ∧
    (NonceMapper.createStrategy [url0] =
      (([url0] : List Url).head?).map StrategyDesc.singlePool) :=
  ⟨by decide, (C10_createStrategy_total [url0]).2.1 (by decide)⟩

/-- C4: on a non-suspended mapper, gc transitions to suspended iff the id is
non-zero and the Registry reports no miners in use — a mapper with id 0 is
never suspended — and the transition deactivates the Registry, resets its job
state and stops (without destroying) the primary and, if present, the donation
strategy. -/
theorem C4_gc_suspension (m : NonceMapper) (h : m.isSuspended = false) :
    ((m.gc).isSuspended = true ↔ (m.id ≠ 0 ∧ m.storage.isUsed = false)) ∧
    (m.id = 0 → m.gc = m) ∧
    (m.id ≠ 0 → m.storage.isUsed = false →
       m.gc = { m with suspended := 1,
                       storage := { m.storage with active := false, job := none },
                       strategy := m.strategy.stop,
                       donate := m.donate.map IStrategy.stop }) := by
  have hz : m.suspended = 0 := by
    simpa [NonceMapper.isSuspended] using h
  refine ⟨?_, ?_, ?_⟩
  · by_cases h0 : m.id = 0
    · simp [NonceMapper.gc, NonceMapper.isSuspended, hz, h0]
    · by_cases hu : m.storage.isUsed = true
      · simp [NonceMapper.gc, NonceMapper.isSuspended, hz, h0, hu]
      · have hu2 : m.storage.isUsed = false := Bool.eq_false_iff.mpr hu
        simp [NonceMapper.gc, NonceMapper.isSuspended, hz, h0, hu2,
          NonceMapper.suspend]
  · intro h0
    simp [NonceMapper.gc, NonceMapper.isSuspended, hz, h0]
  · intro h0 hu
    simp [NonceMapper.gc, NonceMapper.isSuspended, hz, h0, hu,
      NonceMapper.suspend, NonceStorage.setActive, NonceStorage.reset]

/-- C4 witness: a concrete non-suspended, unused mapper with id 1 is suspended
by gc with exactly the described effects. -/
theorem C4_gc_suspension_witness :
    (mIdle.isSuspended = false) ∧
    (mIdle.gc = { mIdle with suspended := 1,
                             storage := { mIdle.storage with active := false, job := none },
                             strategy := mIdle.strategy.stop,
                             donate := mIdle.donate.map IStrategy.stop }) :=
  ⟨by decide, (C4_gc_suspension mIdle (by decide)).2.2 (by decide) (by decide)⟩

/-- gc on a suspended mapper only increments the counter, so iterating it adds
the iteration count to the counter. -/
theorem gc_iterate_on_suspended (k : Nat) (m : NonceMapper)
    (h : m.isSuspended = true) :
    (NonceMapper.gc^[k] m).suspended = m.suspended + k := by
  induction k generalizing m with
  | zero => simp
  | succ k ih =>
    rw [Function.iterate_succ_apply]
    have hg : m.gc = { m with suspended := m.suspended + 1 } := by
      simp [NonceMapper.gc, h]
    rw [hg]
    have h2 : ({ m with suspended := m.suspended + 1 } : NonceMapper).isSuspended = true := by
      simp [NonceMapper.isSuspended]
    rw [ih _ h2]
    show m.suspended + 1 + k = m.suspended + (k + 1)
    omega

/-- C9: the suspendedCounter is 0 iff the mapper is not suspended; gc on an
already-suspended mapper increments the counter by exactly 1 and changes
nothing else; and from a non-suspended idle mapper (id ≠ 0, Registry unused),
after n ≥ 1 gc calls the counter equals n, the number of idle gc cycles since
suspension. -/
theorem C9_suspended_counter (m : NonceMapper) (n : Nat) :
    (m.suspended = 0 ↔ m.isSuspended = false) ∧
    (m.isSuspended = true → m.gc = { m with suspended := m.suspended + 1 }) ∧
    (m.isSuspended = false → m.id ≠ 0 → m.storage.isUsed = false → 1 ≤ n →
       (NonceMapper.gc^[n] m).suspended = n) := by
  refine ⟨by simp [NonceMapper.isSuspended], ?_, ?_⟩
  · intro h
    simp [NonceMapper.gc, h]
  · intro hs h0 hu hn
    obtain ⟨k, rfl⟩ : ∃ k, n = k + 1 := ⟨n - 1, by omega⟩
    rw [Function.iterate_succ_apply]
    have hg : m.gc = m.suspend := by
      simp [NonceMapper.gc, hs, h0, hu]
    rw [hg]
    have h1 : (m.suspend).isSuspended = true := by
      simp [NonceMapper.suspend, NonceMapper.isSuspended]
    rw [gc_iterate_on_suspended k _ h1]
    show (1 : Nat) + k = k + 1
    omega

/-- C9 witness: on the concrete idle mapper, three gc calls leave the counter
at 3; on an already-suspended mapper one gc call only increments the counter. -/
theorem C9_suspended_counter_witness :
    (mSusp.isSuspended = true) ∧
    (mSusp.gc = { mSusp with suspended := mSusp.suspended + 1 }) ∧
    ((NonceMapper.gc^[3] mIdle).suspended = 3) :=
  ⟨by decide,
   (C9_suspended_counter mSusp 1).2.1 (by decide),
   (C9_suspended_counter mIdle 3).2.2 (by decide) (by decide) (by decide) (by decide)⟩

/-- Erasing a key from the Correlator removes every entry under it. -/
theorem mapLookup_mapErase (l : Correlator) (k : Int) :
    mapLookup (mapErase l k) k = none := by
  induction l with
  | nil => rfl
  | cons p t ih =>
    by_cases hp : p.1 = k
    · simpa [mapErase, List.filter_cons, hp] using ih
    · simpa [mapErase, mapLookup, List.filter_cons, List.find?, hp] using ih

/-- Both branches of onResultAccepted return the state submitCtx produced. -/
theorem onResultAccepted_state (m : NonceMapper) (seq clientId : Int)
    (error : Option String) :
    (m.onResultAccepted seq clientId error).1 = (m.submitCtx seq).1 := by
  unfold NonceMapper.onResultAccepted
  cases hm : (m.submitCtx seq).2.miner with
  | none => simp [hm]
  | some mid => cases error <;> simp [hm]

/-- C2: when a context is stored under sequence S, the first onResultAccepted
carrying S removes the Correlator entry and replies to the miner iff it is
still attached — a failure reply carrying the error text and the stored
request id when an error is present, else a success reply; a second call with
the same S resolves to no miner and sends no reply. -/
theorem C2_result_correlation (m : NonceMapper) (S clientId clientId2 : Int)
    (ctx : SubmitCtx) (err err2 : Option String)
    (h : mapLookup m.results S = some ctx) :
    (mapLookup (m.onResultAccepted S clientId err).1.results S = none) ∧
    ((m.onResultAccepted S clientId err).2 =
       match m.storage.miner ctx.minerId, err with
       | some mid, some text => some (Reply.failure ctx.id text mid)
       | some mid, none => some (Reply.success ctx.id mid)
       | none, _ => none) ∧
    (((m.onResultAccepted S clientId err).1.onResultAccepted S clientId2 err2).2 = none) := by
  have hsc : m.submitCtx S =
      ({ m with results := mapErase m.results S },
       { id := ctx.id, minerId := ctx.minerId, miner := m.storage.miner ctx.minerId }) := by
    simp [NonceMapper.submitCtx, h]
  have hstate : (m.onResultAccepted S clientId err).1 =
      { m with results := mapErase m.results S } := by
    rw [onResultAccepted_state, hsc]
  refine ⟨?_, ?_, ?_⟩
  · rw [hstate]
    exact mapLookup_mapErase m.results S
  · unfold NonceMapper.onResultAccepted
    rw [hsc]
    cases hm : m.storage.miner ctx.minerId with
    | none => simp
    | some mid => cases err <;> simp
  · rw [hstate]
    have h2 : mapLookup (mapErase m.results S) S = none := mapLookup_mapErase m.results S
    unfold NonceMapper.onResultAccepted NonceMapper.submitCtx
    simp [h2]

/-- C2 witness: on a concrete mapper holding {requestId 5, minerId 3} under
sequence 10 with miner 3 attached, the first call removes the entry and sends
the failure reply, the second call sends nothing. -/
theorem C2_result_correlation_witness :
    (mapLookup mCorr.results 10 = some ctx0) ∧
    ((mapLookup (mCorr.onResultAccepted 10 1 (some ("low diff"))).1.results 10 = none) ∧
     ((mCorr.onResultAccepted 10 1 (some ("low diff"))).2 =
        match mCorr.storage.miner ctx0.minerId, (some ("low diff") : Option String) with
        | some mid, some text => some (Reply.failure ctx0.id text mid)
        | some mid, none => some (Reply.success ctx0.id mid)
        | none, _ => none) ∧
     (((mCorr.onResultAccepted 10 1 (some ("low diff"))).1.onResultAccepted 10 2 none).2 = none)) :=
  ⟨by decide,
   C2_result_correlation mCorr 10 1 2 ctx0 (some ("low diff")) none (by decide)⟩

/-- C3: an accepted submit (Registry active, job id valid) forwards the
event's request with the difficulty overridden from the Registry's current
job, to the donation strategy iff one is present and currently active (else
the primary), and stores exactly one Correlator entry {requestId, minerId}
keyed by the sequence number that strategy's submit returned. -/
theorem C3_submit_routing (m : NonceMapper) (e : SubmitEvent)
    (hA : m.storage.isActive = true)
    (hV : m.storage.isValidJobId e.request.jobId = true) :
    ((m.submit e).2 = SubmitOutcome.accepted
       ((m.chosenStrategy.submit { e.request with diff := m.storage.jobDiff }).1)) ∧
    ((m.submit e).1.chosenStrategy =
       (m.chosenStrategy.submit { e.request with diff := m.storage.jobDiff }).2) ∧
    ((m.submit e).1.results =
       mapInsert m.results
         ((m.chosenStrategy.submit { e.request with diff := m.storage.jobDiff }).1)
         { id := e.request.id, minerId := e.minerId }) := by
  cases hd : m.donate with
  | none =>
    refine ⟨?_, ?_, ?_⟩ <;>
      simp [NonceMapper.submit, NonceMapper.chosenStrategy, hA, hV, hd]
  | some d =>
    by_cases hact : d.active = true
    · refine ⟨?_, ?_, ?_⟩ <;>
        simp [NonceMapper.submit, NonceMapper.chosenStrategy, IStrategy.isActive,
          IStrategy.submit, hA, hV, hd, hact]
    · have hact2 : d.active = false := by
        simpa using hact
      refine ⟨?_, ?_, ?_⟩ <;>
        simp [NonceMapper.submit, NonceMapper.chosenStrategy, IStrategy.isActive,
          IStrategy.submit, hA, hV, hd, hact2]

/-- C3 witness: the concrete mapper with an active donation strategy accepts
the submit, routes it to the donation strategy (sequence 100) and stores the
single Correlator entry under that sequence number. -/
theorem C3_submit_routing_witness :
    ((mDonate.submit ev0).2 = SubmitOutcome.accepted
       ((mDonate.chosenStrategy.submit { ev0.request with diff := mDonate.storage.jobDiff }).1)) ∧
    ((mDonate.submit ev0).1.chosenStrategy =
       (mDonate.chosenStrategy.submit { ev0.request with diff := mDonate.storage.jobDiff }).2) ∧
    ((mDonate.submit ev0).1.results =
       mapInsert mDonate.results
         ((mDonate.chosenStrategy.submit { ev0.request with diff := mDonate.storage.jobDiff }).1)
         { id := ev0.request.id, minerId := ev0.minerId }) :=
  C3_submit_routing mDonate ev0 (by decide) (by decide)

/-- C5: onJob suppresses the job — the mapper, and in particular the
Registry's job, is left unchanged — iff a donation strategy exists and is
currently active, the reporting client is a real connection (id ≠ -1), and the
donation strategy's reschedule() query returned false; in every other case the
job is installed into the Registry, wholesale-replacing the previous Job. -/
theorem C5_onJob_suppression (m : NonceMapper) (clientId : Int) (j : Job)
    (res : Bool) :
    ((m.donateActive = true ∧ clientId ≠ -1 ∧ res = false) →
       m.onJob clientId j res = m) ∧
    (¬(m.donateActive = true ∧ clientId ≠ -1 ∧ res = false) →
       m.onJob clientId j res = { m with storage := { m.storage with job := some j } }) := by
  constructor
  · rintro ⟨h1, h2, h3⟩
    simp [NonceMapper.onJob, h1, h2, h3]
  · intro hc
    have hcond : (m.donateActive && clientId != -1 && !res) = false := by
      by_cases h1 : m.donateActive = true
      · by_cases h2 : clientId = -1
        · simp [h2]
        · cases res with
          | true => simp
          | false => exact absurd ⟨h1, h2, rfl⟩ hc
      · have h1f : m.donateActive = false := Bool.eq_false_iff.mpr h1
        simp [h1f]
    simp [NonceMapper.onJob, hcond, NonceStorage.setJob]

/-- C5 witness: with the active donation strategy, a real client and a
declined reschedule the concrete job is suppressed; the same mapper without a
donation strategy installs it. -/
theorem C5_onJob_suppression_witness :
    (mDonate.onJob 5 job0 false = mDonate) ∧
    (mBase.onJob 5 job0 false = { mBase with storage := { mBase.storage with job := some job0 } }) :=
  ⟨(C5_onJob_suppression mDonate 5 job0 false).1 ⟨by decide, by decide, rfl⟩,
   (C5_onJob_suppression mBase 5 job0 false).2 (by
     intro hc
     exact absurd hc.1 (by decide))⟩

/-- C6: reload never changes the mapper synchronously — the primary strategy
reference in particular is untouched; the reference changes only in onActive,
and there exactly when the reporting client is not the sentinel (id -1) and
the reporting strategy differs from the held one, in which case the old
reference is released (the Bool result) and the new strategy is swapped in. -/
theorem C6_strategy_swap (m : NonceMapper) (pools prev : List Url) (sRef : Nat)
    (s : IStrategy) (clientId : Int) :
    ((m.reload pools prev).1 = m) ∧
    ((m.onActive sRef s clientId).1.strategyRef =
       if clientId ≠ -1 ∧ sRef ≠ m.strategyRef then sRef else m.strategyRef) ∧
    ((m.onActive sRef s clientId).2 = true ↔ (clientId ≠ -1 ∧ sRef ≠ m.strategyRef)) ∧
    (clientId ≠ -1 → sRef ≠ m.strategyRef →
       (m.onActive sRef s clientId).1.strategy = s) := by
  refine ⟨?_, ?_, ?_, ?_⟩
  · unfold NonceMapper.reload
    split <;> rfl
  · by_cases h1 : clientId = -1
    · simp [NonceMapper.onActive, h1]
    · by_cases h2 : sRef = m.strategyRef
      · simp [NonceMapper.onActive, h1, h2]
      · have h2s : m.strategyRef ≠ sRef := fun he => h2 he.symm
        simp [NonceMapper.onActive, h1, h2, h2s]
  · by_cases h1 : clientId = -1
    · simp [NonceMapper.onActive, h1]
    · by_cases h2 : sRef = m.strategyRef
      · simp [NonceMapper.onActive, h1, h2]
      · have h2s : m.strategyRef ≠ sRef := fun he => h2 he.symm
        simp [NonceMapper.onActive, h1, h2, h2s]
  · intro h1 h2
    have h2s : m.strategyRef ≠ sRef := fun he => h2 he.symm
    simp [NonceMapper.onActive, h1, h2s]

/-- C6 witness: a concrete reload leaves the mapper untouched, and a concrete
onActive from a real client with a different strategy swaps the reference. -/
theorem C6_strategy_swap_witness :
    ((mBase.reload [url0] [url1]).1 = mBase) ∧
    ((mBase.onActive 9 donateOn 5).1.strategyRef =
       if (5 : Int) ≠ -1 ∧ (9 : Nat) ≠ mBase.strategyRef then 9 else mBase.strategyRef) ∧
    ((mBase.onActive 9 donateOn 5).1.strategy = donateOn) :=
  ⟨(C6_strategy_swap mBase [url0] [url1] 9 donateOn 5).1,
   (C6_strategy_swap mBase [url0] [url1] 9 donateOn 5).2.1,
   (C6_strategy_swap mBase [url0] [url1] 9 donateOn 5).2.2.2 (by decide) (by decide)⟩

/-- The boolean no-op guard of reload holds iff the pool lists are
element-wise equal under compare. -/
theorem reload_guard_iff (pools prev : List Url) :
    (pools.length == prev.length
       && (List.zip pools prev).all (fun p => compare p.1 p.2)) = true
      ↔ List.Forall₂ (fun i j => compare i j = true) pools prev := by
  induction pools generalizing prev with
  | nil =>
    cases prev with
    | nil => simp
    | cons b bs => simp
  | cons a as ih =>
    cases prev with
    | nil => simp
    | cons b bs =>
      simp only [List.zip_cons_cons, List.all_cons, List.length_cons,
        List.forall₂_cons, Bool.and_eq_true, beq_iff_eq, Nat.succ_inj]
      constructor
      · rintro ⟨hlen, hc, hall⟩
        exact ⟨hc, (ih bs).mp (by simp [hlen, hall])⟩
      · rintro ⟨hc, hrest⟩
        have := (ih bs).mpr hrest
        simp only [Bool.and_eq_true, beq_iff_eq] at this
        exact ⟨this.1, hc, this.2⟩

/-- C7: reload is a no-op — no strategy construction and no connect call — iff
the ordered pool lists are element-wise equal by pool value; for unequal lists
it constructs a brand-new strategy from the new pool list and immediately
issues connect on it. -/
theorem C7_reload_noop (m : NonceMapper) (pools prev : List Url) :
    (List.Forall₂ (fun i j => compare i j = true) pools prev ↔
       (m.reload pools prev).2 = none) ∧
    (¬ List.Forall₂ (fun i j => compare i j = true) pools prev →
       m.reload pools prev =
         (m, some { built := NonceMapper.createStrategy pools,
                    connectCalled := (NonceMapper.createStrategy pools).isSome })) := by
  constructor
  · constructor
    · intro hf
      have hg := (reload_guard_iff pools prev).mpr hf
      simp [NonceMapper.reload, hg]
    · intro hn
      by_cases hg : (pools.length == prev.length
          && (List.zip pools prev).all (fun p => compare p.1 p.2)) = true
      · exact (reload_guard_iff pools prev).mp hg
      · have hgf : (pools.length == prev.length
            && (List.zip pools prev).all (fun p => compare p.1 p.2)) = false :=
          Bool.eq_false_iff.mpr hg
        simp [NonceMapper.reload, hgf] at hn
  · intro hf
    have hg : (pools.length == prev.length
        && (List.zip pools prev).all (fun p => compare p.1 p.2)) = false := by
      by_cases hg1 : (pools.length == prev.length
          && (List.zip pools prev).all (fun p => compare p.1 p.2)) = true
      · exact absurd ((reload_guard_iff pools prev).mp hg1) hf
      · exact Bool.eq_false_iff.mpr hg1
    simp [NonceMapper.reload, hg]

/-- C7 witness: identical singleton pool lists make reload a no-op; differing
lists make it construct a strategy from the new pools and connect it. -/
theorem C7_reload_noop_witness :
    ((mBase.reload [url0] [url0]).2 = none) ∧
    (mBase.reload [url0] [url1] =
       (mBase, some { built := NonceMapper.createStrategy [url0],
                      connectCalled := (NonceMapper.createStrategy [url0]).isSome })) :=
  ⟨(C7_reload_noop mBase [url0] [url0]).1.mp
     (List.forall₂_cons.mpr ⟨by decide, List.Forall₂.nil⟩),
   (C7_reload_noop mBase [url0] [url1]).2 (by
     intro hf
     rcases List.forall₂_cons.mp hf with ⟨hc, _⟩
     exact absurd hc (by decide))⟩

/-- C8: add fails with no side effect when the Registry rejects the
registration — it returns false, clears no suspension, issues no connect and
records no mapper id on the miner; on success it records the mapper's id and,
when the mapper was suspended, clears the suspension counter to 0 and issues
connect on the primary and, if present, the donation strategy. -/
theorem C8_add (m : NonceMapper) (minerId : Int) (acc : Bool) :
    (acc = false → m.add minerId acc =
       { ok := false, mapper := m, connectCalled := false, minerMapperId := none }) ∧
    (acc = true →
       (m.isSuspended = true → m.add minerId acc =
          { ok := true,
            mapper := { m with
              storage := { m.storage with minerIds := m.storage.minerIds ++ [minerId] },
              suspended := 0,
              strategy := m.strategy.connect,
              donate := m.donate.map IStrategy.connect },
            connectCalled := true, minerMapperId := some m.id }) ∧
       (m.isSuspended = false → m.add minerId acc =
          { ok := true,
            mapper := { m with
              storage := { m.storage with minerIds := m.storage.minerIds ++ [minerId] } },
            connectCalled := false, minerMapperId := some m.id })) := by
  refine ⟨?_, ?_⟩
  · intro ha
    simp [NonceMapper.add, NonceStorage.add, ha]
  · intro ha
    constructor
    · intro hs
      simp [NonceMapper.add, NonceStorage.add, ha, NonceMapper.isSuspended,
        NonceMapper.connect, IStrategy.connect]
      simp [NonceMapper.isSuspended] at hs
      simp [hs]
    · intro hs
      have hz : m.suspended = 0 := by
        simpa [NonceMapper.isSuspended] using hs
      simp [NonceMapper.add, NonceStorage.add, ha, NonceMapper.isSuspended, hz]

/-- C8 witness: rejected registration on the concrete mapper is a no-op with a
false return; accepted registration on the concrete suspended mapper clears
the counter, connects the strategies and records mapper id 1 on the miner. -/
theorem C8_add_witness :
    (mBase.add 4 false =
       { ok := false, mapper := mBase, connectCalled := false, minerMapperId := none }) ∧
    (mSusp.add 4 true =
       { ok := true,
         mapper := { mSusp with
           storage := { mSusp.storage with minerIds := mSusp.storage.minerIds ++ [4] },
           suspended := 0,
           strategy := mSusp.strategy.connect,
           donate := mSusp.donate.map IStrategy.connect },
         connectCalled := true, minerMapperId := some mSusp.id }) :=
  ⟨(C8_add mBase 4 false).1 rfl,
   ((C8_add mSusp 4 true).2 rfl).1 (by decide)⟩
